import Mathlib

/-!
Shallow embedding of the artifact-transfer HTTP client
(`http/httpclient/client.go`) and proofs about its specified behaviour.

Go data is modelled as follows: HTTP headers (`http.Header`, a map from
canonical header name to a list of values) become a function
`String → List String` keyed by the lower-cased name, `Header.Set`
replaces the value list by a singleton, and `Header.Get` returns the
first value or the empty string.  Machine integers that the claims
range over are non-negative here, so they become `Nat`; byte values
become `Fin 256`.  Network dispatch and the other collaborators outside
the embedded file are taken as explicit oracle arguments.
-/

/-! ### Strings: small facts used throughout -/

theorem strData_append (a b : String) : (a ++ b).data = a.data ++ b.data := rfl

theorem strLength_append (a b : String) : (a ++ b).length = a.length + b.length := by
  show (a ++ b).data.length = a.data.length + b.data.length
  rw [strData_append, List.length_append]

theorem strLength_pos_of_ne_empty (s : String) (h : s ≠ "") : 0 < s.length := by
  cases s with
  | mk data =>
    cases data with
    | nil => exact absurd rfl h
    | cons c cs => simp [String.length]

theorem basic_ne_bearer (x y : String) : "Basic " ++ x ≠ "Bearer " ++ y := by
  intro h
  have h2 : ("Basic " ++ x).data = ("Bearer " ++ y).data := congrArg String.data h
  rw [strData_append, strData_append] at h2
  rw [show "Basic ".data = ['B', 'a', 's', 'i', 'c', ' '] from rfl,
     show "Bearer ".data = ['B', 'e', 'a', 'r', 'e', 'r', ' '] from rfl] at h2
  simp only [List.cons_append, List.nil_append] at h2
  injection h2 with _ h3
  injection h3 with h4 _
  exact absurd h4 (by decide)

/-! ### Header model

Go's `http.Header` is a map from a canonical (case-insensitive) header
name to a list of values.  `canonKey` stands for Go's canonicalisation:
two names collide exactly when they agree up to ASCII case, which the
lower-cased form captures. -/

def canonChar (c : Char) : Char :=
  if 'A' ≤ c ∧ c ≤ 'Z' then Char.ofNat (c.toNat + 32) else c

def canonKey (s : String) : String := ⟨s.data.map canonChar⟩

def Headers : Type := String → List String

/-- `Header.Set`: replaces all values of the key by the single value `v`. -/
def hSet (h : Headers) (k v : String) : Headers :=
  fun k' => if k' = canonKey k then [v] else h k'

/-- `Header.Get`: first value of the key, or `""` when absent. -/
def hGet (h : Headers) (k : String) : String :=
  (h (canonKey k)).headD ""

def hValues (h : Headers) (k : String) : List String := h (canonKey k)

def emptyHeaders : Headers := fun _ => []

theorem hGet_hSet_same (h : Headers) (k v : String) : hGet (hSet h k v) k = v := by
  simp [hGet, hSet]

theorem hGet_hSet_other (h : Headers) (k v k' : String) (hne : canonKey k' ≠ canonKey k) :
    hGet (hSet h k v) k' = hGet h k' := by
  simp [hGet, hSet, hne]

theorem hValues_hSet_same (h : Headers) (k v : String) : hValues (hSet h k v) k = [v] := by
  simp [hValues, hSet]

theorem hValues_hSet_other (h : Headers) (k v k' : String) (hne : canonKey k' ≠ canonKey k) :
    hValues (hSet h k v) k' = hValues h k' := by
  simp [hValues, hSet, hne]

/-! ### Requests, responses and per-call client details -/

structure Request where
  method : String
  url : String
  headers : Headers

/-- `http.Response`, restricted to the fields the embedded code reads:
`StatusCode`, the status line `Status`, `Header` and the body bytes. -/
structure Response where
  statusCode : Nat
  status : String
  headers : Headers
  body : String

/-- `httputils.HttpClientDetails` (fields as used by the embedded file).
The caller header map `Headers` is `map[string]string` in Go; it is kept
as an association list, and the nullary pre-retry interceptors are kept
as their returned values. -/
structure HttpClientDetails where
  User : String
  Password : String
  ApiKey : String
  AccessToken : String
  Headers : List (String × String)
  PreRetryInterceptors : List Bool

/-! ### Authentication decorator (`setAuthentication`, `IsApiKey`)

Go's `req.SetBasicAuth(u, p)` sets the `Authorization` header to
`"Basic " ++ base64(u ++ ":" ++ p)` with the standard base64 alphabet;
the encoder below follows `encoding/base64.StdEncoding`. -/

def base64Chars : List Char :=
  "ABCDEFGHIJKLMNOPQRSTUVWXYZabcdefghijklmnopqrstuvwxyz0123456789+/".data

def b64c (n : Nat) : Char := base64Chars.getD (n % 64) 'A'

def base64Encode : List Nat → List Char
  | [] => []
  | [b1] => [b64c (b1 / 4), b64c (b1 % 4 * 16), '=', '=']
  | [b1, b2] => [b64c (b1 / 4), b64c (b1 % 4 * 16 + b2 / 16), b64c (b2 % 16 * 4), '=']
  | b1 :: b2 :: b3 :: rest =>
      b64c (b1 / 4) :: b64c (b1 % 4 * 16 + b2 / 16) ::
        b64c (b2 % 16 * 4 + b3 / 64) :: b64c (b3 % 64) :: base64Encode rest

def strBytes (s : String) : List Nat := s.toUTF8.data.toList.map (fun b => b.toNat)

def basicAuthValue (user pass : String) : String :=
  "Basic " ++ String.mk (base64Encode (strBytes (user ++ ":" ++ pass)))

def setBasicAuth (req : Request) (user pass : String) : Request :=
  ⟨req.method, req.url, hSet req.headers "Authorization" (basicAuthValue user pass)⟩

/-- `IsApiKey`: `strings.HasPrefix(key, "AKCp8") && len(key) >= 73`
(`len` is the UTF-8 byte length in Go). -/
def IsApiKey (key : String) : Bool :=
  "AKCp8".isPrefixOf key && decide (73 ≤ key.utf8ByteSize)

def setAuthentication (req : Request) (d : HttpClientDetails) : Request :=
  if d.ApiKey ≠ "" then
    if d.User ≠ "" then setBasicAuth req d.User d.ApiKey
    else ⟨req.method, req.url, hSet req.headers "X-JFrog-Art-Api" d.ApiKey⟩
  else if d.AccessToken ≠ "" then
    if IsApiKey d.AccessToken then setBasicAuth req d.User d.AccessToken
    else ⟨req.method, req.url, hSet req.headers "Authorization" ("Bearer " ++ d.AccessToken)⟩
  else if d.Password ≠ "" then setBasicAuth req d.User d.Password
  else req

/-- The scheme `setAuthentication` chooses, read directly off its branch
structure; used to organise the case analysis. -/
inductive AuthScheme where
  | basic (user pass : String)
  | artApi (key : String)
  | bearer (token : String)
  | noAuth

def chosenScheme (d : HttpClientDetails) : AuthScheme :=
  if d.ApiKey ≠ "" then
    if d.User ≠ "" then .basic d.User d.ApiKey
    else .artApi d.ApiKey
  else if d.AccessToken ≠ "" then
    if IsApiKey d.AccessToken then .basic d.User d.AccessToken
    else .bearer d.AccessToken
  else if d.Password ≠ "" then .basic d.User d.Password
  else .noAuth

def applyScheme (req : Request) : AuthScheme → Request
  | .basic u p => setBasicAuth req u p
  | .artApi k => ⟨req.method, req.url, hSet req.headers "X-JFrog-Art-Api" k⟩
  | .bearer t => ⟨req.method, req.url, hSet req.headers "Authorization" ("Bearer " ++ t)⟩
  | .noAuth => req

/-- The request carries HTTP basic credentials. -/
def hasBasicAuth (req : Request) : Prop :=
  ∃ r, hGet req.headers "Authorization" = "Basic " ++ r

/-- The request carries a bearer token. -/
def hasBearerAuth (req : Request) : Prop :=
  ∃ r, hGet req.headers "Authorization" = "Bearer " ++ r

/-- The request carries the `X-JFrog-Art-Api` header. -/
def hasArtApiHeader (req : Request) : Prop :=
  hValues req.headers "X-JFrog-Art-Api" ≠ []

/-! ### Header composition in `doRequest` and the trace-id token -/

def addUserAgentHeader (userAgent : String) (req : Request) : Request :=
  ⟨req.method, req.url, hSet req.headers "User-Agent" userAgent⟩

def copyHeaders (d : HttpClientDetails) (req : Request) : Request :=
  ⟨req.method, req.url, d.Headers.foldl (fun h p => hSet h p.1 p.2) req.headers⟩

/-- `SetUberTraceIdToken`: the process-wide token is
`fmt.Sprintf("%s:%s:0:0", t, t)`. -/
def SetUberTraceIdToken (traceIdToken : String) : String :=
  traceIdToken ++ ":" ++ traceIdToken ++ ":0:0"

def addUberTraceIdHeaderIfSet (uberTraceIdToken : String) (req : Request) : Request :=
  if uberTraceIdToken = "" then req
  else ⟨req.method, req.url, hSet req.headers "uber-trace-id" uberTraceIdToken⟩

/-- The header-composition phase of `doRequest`, in source order:
`setAuthentication`, `addUserAgentHeader`, `copyHeaders`,
`addUberTraceIdHeaderIfSet`.  The user-agent string and the process-wide
trace token are explicit arguments. -/
def composeRequestHeaders (userAgent uberTraceIdToken : String)
    (d : HttpClientDetails) (req : Request) : Request :=
  addUberTraceIdHeaderIfSet uberTraceIdToken
    (copyHeaders d (addUserAgentHeader userAgent (setAuthentication req d)))

/-- The value the caller header map assigns to (the canonical form of) `k`,
with later entries winning, or `none` when the caller supplied no such name. -/
def lastHeaderMatch (hs : List (String × String)) (k : String) : Option String :=
  match hs with
  | [] => none
  | p :: t =>
    match lastHeaderMatch t k with
    | some v => some v
    | none => if canonKey p.1 = canonKey k then some p.2 else none

/-! ### The `Send` retry predicate (`shouldRetry`) -/

/-- `shouldRetry`: no retry when the status is below 500 and differs from
429 (`http.StatusTooManyRequests`); otherwise every pre-retry interceptor
must return true. -/
def shouldRetry (resp : Response) (d : HttpClientDetails) : Bool :=
  if resp.statusCode < 500 ∧ resp.statusCode ≠ 429 then false
  else d.PreRetryInterceptors.all (fun b => b)

/-! ### Redirect handling in `doRequest`

`client.Do` is a collaborator: it is passed in as an oracle taking the
flag "was the redirect-capturing clone installed?" (the clone is built
when `!followRedirect || method == POST`) and returning the response,
the error, and the URL captured by the `CheckRedirect` callback (always
`""` when the callback was not installed, since only the callback writes
`redirectUrl`).  The recursive `SendPost` call is likewise an oracle
from (url, content). -/

structure DispatchOutcome where
  resp : Option Response
  err : Option String
  captured : String

structure SendResult where
  resp : Option Response
  body : Option String
  err : Option String

/-- The quadruple `doRequest` returns: `(resp, respBody, redirectUrl, err)`. -/
structure DoRequestResult where
  resp : Option Response
  respBody : Option String
  redirectUrl : String
  err : Option String

/-- The code after the redirect-interception block of `doRequest`:
return on a non-nil error, otherwise read the body when `closeBody` is
set (close errors are not modelled). -/
def doRequestTail (out : DispatchOutcome) (redirectUrl : String) (closeBody : Bool) :
    DoRequestResult :=
  match out.err with
  | some e => ⟨out.resp, none, redirectUrl, some e⟩
  | none =>
    if closeBody then ⟨out.resp, out.resp.map (fun r => r.body), redirectUrl, none⟩
    else ⟨out.resp, none, redirectUrl, none⟩

/-- `doRequest` from the dispatch step on (the header composition phase
is `composeRequestHeaders` above).  Mirrors the source: when the dispatch
failed and a redirect URL was captured, a blocked redirect is returned
as-is when `followRedirect` is false, and a POST is re-sent to the
captured URL (clearing `redirectUrl`) when `followRedirect` is true. -/
def doRequest (dispatch : Bool → DispatchOutcome) (sendPost : String → String → SendResult)
    (method content : String) (followRedirect closeBody : Bool) : DoRequestResult :=
  let useCapture := !followRedirect || (followRedirect && method == "POST")
  let out := dispatch useCapture
  let redirectUrl := if useCapture then out.captured else ""
  if out.err.isSome = true ∧ redirectUrl ≠ "" then
    if !followRedirect then ⟨out.resp, none, redirectUrl, out.err⟩
    else if method == "POST" then
      let s := sendPost redirectUrl content
      ⟨s.resp, s.body, "", s.err⟩
    else doRequestTail out redirectUrl closeBody
  else doRequestTail out redirectUrl closeBody

/-! ### Concurrent download: chunk partitioning (`downloadChunksConcurrently`)

In the source, `chunkSize := fileSize / splitCount`, `mod := fileSize %
splitCount`, and chunk `i` gets `start := chunkSize * i`,
`end := chunkSize * (i+1)`, with `end += mod` when `i == splitCount-1`.
`fileSize` is a non-negative `int64`, modelled as `Nat`. -/

def chunkStart (fileSize splitCount i : Nat) : Nat :=
  fileSize / splitCount * i

def chunkEnd (fileSize splitCount i : Nat) : Nat :=
  fileSize / splitCount * (i + 1) + (if i = splitCount - 1 then fileSize % splitCount else 0)

/-! ### Concurrent download: the join after `wg.Wait()`

After the wait-group, the source scans `errorsList` for the first
non-nil error, then scans `respList` in index order for a response with
status other than 206 (`http.StatusPartialContent`), dereferencing each
slot, and finally returns the last slot.  A slot that was never filled
is `none`; dereferencing it (or indexing an empty list) is a runtime
panic, modelled as `Except.error ()`. -/

def firstErr : List (Option String) → Option String
  | [] => none
  | some e :: _ => some e
  | none :: t => firstErr t

def scanNon206 : List (Option Response) → Except Unit (Option Response)
  | [] => .ok none
  | none :: _ => .error ()
  | some r :: t => if r.statusCode ≠ 206 then .ok (some r) else scanNon206 t

/-- The join of `downloadChunksConcurrently` (source lines after
`wg.Wait()`): returns `(resp, err)` or a panic. -/
def joinChunks (errorsList : List (Option String)) (respList : List (Option Response)) :
    Except Unit (Option Response × Option String) :=
  match firstErr errorsList with
  | some e => .ok (none, some e)
  | none =>
    match scanNon206 respList with
    | .error _ => .error ()
    | .ok (some r) => .ok (some r, none)
    | .ok none =>
      match respList.getLast? with
      | some r => .ok (r, none)
      | none => .error ()

/-! ### Checksum selection and verification -/

/-- The two digest algorithms `handleExpectedSha` can pick. -/
inductive HashKind where
  | sha1
  | sha256

/-- `handleExpectedSha`: `len(expectedSha1) > 0` wins, else
`len(expectedSha256) > 0`, else no hash (`nil` hasher, modelled `none`). -/
def handleExpectedSha (expectedSha1 expectedSha256 : String) : String × Option HashKind :=
  if 0 < expectedSha1.length then (expectedSha1, some HashKind.sha1)
  else if 0 < expectedSha256.length then (expectedSha256, some HashKind.sha256)
  else ("", none)

/-- Go's `encoding/hex` digit table (`hextable`), lower case. -/
def hexTable : List Char := "0123456789abcdef".data

def hexEncodeByte (b : Fin 256) : List Char :=
  [hexTable.getD (b.val / 16) '0', hexTable.getD (b.val % 16) '0']

/-- `hex.EncodeToString` over the digest bytes returned by `Sum(nil)`. -/
def hexEncodeToString (bs : List (Fin 256)) : String :=
  String.mk (bs.foldr (fun b acc => hexEncodeByte b ++ acc) [])

/-- `validateChecksum`: compare the hex form of the computed digest with
the expected string; the digest bytes (`actualSha.Sum(nil)`) stand for
the `hash.Hash` state. -/
def validateChecksum (expectedSha : String) (actualShaSum : List (Fin 256))
    (fileName : String) : Option String :=
  let actualShaString := hexEncodeToString actualShaSum
  if actualShaString ≠ expectedSha then
    some ("checksum mismatch for  " ++ fileName ++ ", expected: " ++ expectedSha
          ++ ", actual: " ++ actualShaString)
  else none

/-! ### Upload (`UploadFile` retry handler and `UploadFileFromReader`) -/

/-- Modelled from the spec: `errorutils.CheckResponseStatus` lives in this
repository outside the embedded file; per the spec, a status outside the
expected set yields an error whose message contains the status line. -/
def checkResponseStatus (resp : Response) (expectedStatusCodes : List Nat) : Option String :=
  if expectedStatusCodes.contains resp.statusCode then none
  else some ("server response: " ++ resp.status)

/-- What `client.Do` produced for the PUT (an oracle value). -/
structure UploadWire where
  resp : Option Response
  err : Option String

/-- `UploadFileFromReader` from the dispatch on: returns
`(resp, body, err)`.  `CheckResponseStatus` is invoked with
`(StatusCreated, StatusOK, StatusAccepted)`, and the body is read only
when the status was accepted. -/
def UploadFileFromReader (wire : UploadWire) : Option Response × Option String × Option String :=
  match wire.err with
  | some e => (wire.resp, none, some e)
  | none =>
    match wire.resp with
    | none => (none, none, none)
    | some resp =>
      match checkResponseStatus resp [201, 200, 202] with
      | some e => (some resp, none, some e)
      | none => (some resp, some resp.body, none)

/-- The `ExecutionHandler` of `UploadFile`, returning Go's
`(shouldRetry, error)` pair: a non-nil error retries, a nil response is a
terminal error, a status below 500 terminates cleanly, anything else
retries. -/
def uploadExecutionHandler (wire : UploadWire) : Bool × Option String :=
  match UploadFileFromReader wire with
  | (resp, _, err) =>
    match err with
    | some e => (true, some e)
    | none =>
      match resp with
      | none => (false, some "Received empty response from file upload")
      | some r => if r.statusCode < 500 then (false, none) else (true, none)

/-! ### Remote file details (`GetRemoteFileDetails`) -/

structure FileDetails where
  Md5 : String
  Sha1 : String
  Sha256 : String
  Size : Int

/-- Modelled from the spec: `errorutils.CheckResponseStatusWithBody` is
repository code outside the embedded file; a status outside the expected
set is an error (carrying the status line and a body snippet). -/
def checkResponseStatusWithBody (resp : Response) (body : Option String)
    (expectedStatusCodes : List Nat) : Option String :=
  if expectedStatusCodes.contains resp.statusCode then none
  else some ("server response: " ++ resp.status ++ (body.getD ""))

/-- Modelled after Go's standard `strconv.ParseInt(s, 10, 64)`: an
optional sign followed by at least one decimal digit, result within
signed 64-bit range. -/
def parseInt64 (s : String) : Except String Int :=
  let core : List Char → Int → Except String Int := fun digits sign =>
    if digits = [] then .error "invalid syntax"
    else if digits.all (fun c => c.isDigit) then
      let n : Nat := digits.foldl (fun acc c => acc * 10 + (c.toNat - 48)) 0
      let v : Int := sign * (n : Int)
      if -(2 ^ 63) ≤ v ∧ v < 2 ^ 63 then .ok v else .error "value out of range"
    else .error "invalid syntax"
  match s.data with
  | '+' :: rest => core rest 1
  | '-' :: rest => core rest (-1)
  | l => core l 1

/-- `GetRemoteFileDetails` from the HEAD response on (the `SendHead`
exchange itself is the oracle input): check the status is 200, parse
`Content-Length` when non-empty (`fileSize` stays 0 otherwise), and copy
the three `X-Checksum-*` headers. -/
def GetRemoteFileDetails (resp : Response) (body : Option String) :
    Except String (FileDetails × Response) :=
  match checkResponseStatusWithBody resp body [200] with
  | some e => .error e
  | none =>
    let contentLength := hGet resp.headers "Content-Length"
    if 0 < contentLength.length then
      match parseInt64 contentLength with
      | .error e => .error e
      | .ok n =>
        .ok (⟨hGet resp.headers "X-Checksum-Md5", hGet resp.headers "X-Checksum-Sha1",
              hGet resp.headers "X-Checksum-Sha256", n⟩, resp)
    else
      .ok (⟨hGet resp.headers "X-Checksum-Md5", hGet resp.headers "X-Checksum-Sha1",
            hGet resp.headers "X-Checksum-Sha256", 0⟩, resp)

/-! ### Concrete inputs used by witnesses and counterexamples -/

def c3req : Request := ⟨"GET", "http://server/api", emptyHeaders⟩

def c3d : HttpClientDetails := ⟨"admin", "", "AKCpSomeKey", "", [], []⟩

def c5req : Request := ⟨"GET", "http://server/a", emptyHeaders⟩

/-- Caller details that explicitly supply an `uber-trace-id` header. -/
def c5d : HttpClientDetails := ⟨"", "", "", "", [("uber-trace-id", "X")], []⟩

/-- Caller details that explicitly supply a `User-Agent` header. -/
def c5dUA : HttpClientDetails := ⟨"", "", "", "", [("User-Agent", "custom-agent")], []⟩

def c6resp302 : Response := ⟨302, "302 Found", emptyHeaders, ""⟩

def c6respOK : Response := ⟨200, "200 OK", emptyHeaders, "ok"⟩

/-- A target that answers the POST with a 302 to `http://b`: with the
capturing clone installed, `client.Do` surfaces the sentinel error and the
callback has recorded the target URL. -/
def c6dispatch : Bool → DispatchOutcome := fun b =>
  if b then ⟨some c6resp302, some "redirect", "http://b"⟩
  else ⟨some c6respOK, none, ""⟩

def c6sendPost : String → String → SendResult := fun _ _ => ⟨some c6respOK, some "ok", none⟩

def resp429 : Response := ⟨429, "429 Too Many Requests", emptyHeaders, ""⟩

def resp200ok : Response := ⟨200, "200 OK", emptyHeaders, "uploaded"⟩

def resp404 : Response := ⟨404, "404 Not Found", emptyHeaders, ""⟩

def c2resp206 : Response := ⟨206, "206 Partial Content", emptyHeaders, "chunk"⟩

def c2resp404 : Response := ⟨404, "404 Not Found", emptyHeaders, ""⟩

def c10resp : Response :=
  ⟨200, "200 OK",
   fun k =>
     if k = "x-checksum-md5" then ["m5"]
     else if k = "x-checksum-sha1" then ["s1"]
     else if k = "x-checksum-sha256" then ["s2"]
     else [],
   ""⟩

/-! ## Theorems -/

/-! ### Generic helper lemmas -/

theorem getD_mem_or (l : List Char) (i : Nat) (d : Char) : l.getD i d ∈ l ∨ l.getD i d = d := by
  induction l generalizing i with
  | nil => right; rfl
  | cons x t ih =>
    cases i with
    | zero => left; exact List.mem_cons_self x t
    | succ n =>
      rcases ih n with h | h
      · left; exact List.mem_cons_of_mem x h
      · right; exact h

theorem firstErr_mem (es : List (Option String)) (e : String) (h : firstErr es = some e) :
    some e ∈ es := by
  induction es with
  | nil => cases h
  | cons x t ih =>
    cases x with
    | none => exact List.mem_cons_of_mem _ (ih h)
    | some e' =>
      rw [show firstErr (some e' :: t) = some e' from rfl] at h
      rw [← h]
      exact List.mem_cons_self _ _

theorem firstErr_eq_none (es : List (Option String)) (h : ∀ x ∈ es, x = none) :
    firstErr es = none := by
  induction es with
  | nil => rfl
  | cons x t ih =>
    have hx : x = none := h x (List.mem_cons_self _ _)
    subst hx
    exact ih (fun y hy => h y (List.mem_cons_of_mem _ hy))

theorem firstErr_exists (es : List (Option String)) (h : ∃ e, some e ∈ es) :
    ∃ e, firstErr es = some e := by
  induction es with
  | nil => rcases h with ⟨e, he⟩; cases he
  | cons x t ih =>
    cases x with
    | some e' => exact ⟨e', rfl⟩
    | none =>
      rcases h with ⟨e, he⟩
      rcases List.mem_cons.mp he with h1 | h1
      · cases h1
      · exact ih ⟨e, h1⟩

/-! ### C4 -/

/-- C4: the `Send` retry predicate returns true if and only if the HTTP
status is at least 500 or equals 429, and every pre-retry interceptor
supplied by the caller returns true. -/
theorem shouldRetry_iff (resp : Response) (d : HttpClientDetails) :
    shouldRetry resp d = true ↔
      ((500 ≤ resp.statusCode ∨ resp.statusCode = 429)
        ∧ ∀ b ∈ d.PreRetryInterceptors, b = true) := by
  constructor
  · intro h
    by_cases hc : resp.statusCode < 500 ∧ resp.statusCode ≠ 429
    · rw [shouldRetry, if_pos hc] at h
      cases h
    · rw [shouldRetry, if_neg hc] at h
      exact ⟨by omega, fun b hb => List.all_eq_true.mp h b hb⟩
  · rintro ⟨h1, h2⟩
    have hc : ¬(resp.statusCode < 500 ∧ resp.statusCode ≠ 429) := by omega
    rw [shouldRetry, if_neg hc]
    exact List.all_eq_true.mpr (fun b hb => h2 b hb)

/-! ### C7 -/

/-- C7: when both an expected SHA-1 and an expected SHA-256 are supplied,
`handleExpectedSha` selects the SHA-1 value and the SHA-1 algorithm, and
its result does not depend on the SHA-256 argument at all. -/
theorem handleExpectedSha_precedence (s1 s256 : String) (h1 : s1 ≠ "") :
    handleExpectedSha s1 s256 = (s1, some HashKind.sha1)
      ∧ ∀ s256', handleExpectedSha s1 s256 = handleExpectedSha s1 s256' := by
  have hp : 0 < s1.length := strLength_pos_of_ne_empty s1 h1
  constructor
  · rw [handleExpectedSha, if_pos hp]
  · intro s256'
    rw [handleExpectedSha, if_pos hp, handleExpectedSha, if_pos hp]

theorem handleExpectedSha_precedence_witness :
    handleExpectedSha "da39a3ee5e6b4b0d3255bfef95601890afd80709"
        "e3b0c44298fc1c149afbf4c8996fb92427ae41e4649b934ca495991b7852b855"
      = ("da39a3ee5e6b4b0d3255bfef95601890afd80709", some HashKind.sha1) :=
  (handleExpectedSha_precedence _ _ (by decide)).1

/-! ### C9 -/

theorem hexEncodeToString_chars (digest : List (Fin 256)) :
    ∀ c ∈ (hexEncodeToString digest).data, c ∈ hexTable := by
  intro c hc
  have hc' : c ∈ digest.foldr (fun b acc => hexEncodeByte b ++ acc) [] := hc
  clear hc
  induction digest with
  | nil => cases hc'
  | cons b t ih =>
    rw [List.foldr_cons] at hc'
    rcases List.mem_append.mp hc' with h | h
    · rw [hexEncodeByte] at h
      rcases List.mem_cons.mp h with h1 | h1
      · subst h1
        rcases getD_mem_or hexTable (b.val / 16) '0' with hm | hm
        · exact hm
        · rw [hm]; decide
      · rcases List.mem_cons.mp h1 with h2 | h2
        · subst h2
          rcases getD_mem_or hexTable (b.val % 16) '0' with hm | hm
          · exact hm
          · rw [hm]; decide
        · cases h2
    · exact ih h

/-- C9: checksum verification compares the expected digest string with the
hex encoding of the computed digest (whose characters all come from the
lower-case hex table); equality yields no error, and inequality yields an
error message carrying the file name, the expected string and the actual
hex string. -/
theorem validateChecksum_spec (expectedSha : String) (digest : List (Fin 256))
    (fileName : String) :
    (validateChecksum expectedSha digest fileName = none ↔
        hexEncodeToString digest = expectedSha)
    ∧ (hexEncodeToString digest ≠ expectedSha →
        validateChecksum expectedSha digest fileName =
          some ("checksum mismatch for  " ++ fileName ++ ", expected: " ++ expectedSha
                ++ ", actual: " ++ hexEncodeToString digest))
    ∧ (∀ c ∈ (hexEncodeToString digest).data, c ∈ hexTable) := by
  refine ⟨?_, ?_, hexEncodeToString_chars digest⟩
  · by_cases h : hexEncodeToString digest = expectedSha
    · rw [validateChecksum]
      simp [h]
    · rw [validateChecksum]
      simp [h]
  · intro h
    rw [validateChecksum]
    simp [h]

theorem validateChecksum_spec_witness :
    validateChecksum "ab" [(0 : Fin 256)] "file.bin" =
      some ("checksum mismatch for  " ++ "file.bin" ++ ", expected: " ++ "ab"
            ++ ", actual: " ++ hexEncodeToString [(0 : Fin 256)]) :=
  (validateChecksum_spec "ab" [(0 : Fin 256)] "file.bin").2.1 (by decide)

/-! ### C10 -/

/-- C10: a HEAD response with status 200 and an absent or empty
`Content-Length` header makes `GetRemoteFileDetails` succeed with `Size = 0`
and the `Md5`, `Sha1` and `Sha256` fields copied verbatim from the
`X-Checksum-Md5`, `X-Checksum-Sha1` and `X-Checksum-Sha256` headers. -/
theorem getRemoteFileDetails_no_content_length (resp : Response) (body : Option String)
    (h200 : resp.statusCode = 200)
    (hcl : hGet resp.headers "Content-Length" = "") :
    GetRemoteFileDetails resp body =
      .ok (⟨hGet resp.headers "X-Checksum-Md5", hGet resp.headers "X-Checksum-Sha1",
            hGet resp.headers "X-Checksum-Sha256", 0⟩, resp) := by
  rw [GetRemoteFileDetails, checkResponseStatusWithBody, h200]
  simp [hcl]

theorem getRemoteFileDetails_no_content_length_witness :
    GetRemoteFileDetails c10resp none =
      .ok (⟨hGet c10resp.headers "X-Checksum-Md5", hGet c10resp.headers "X-Checksum-Sha1",
            hGet c10resp.headers "X-Checksum-Sha256", 0⟩, c10resp) :=
  getRemoteFileDetails_no_content_length c10resp none rfl (by decide)

/-! ### C3 -/

theorem setAuthentication_eq_applyScheme (req : Request) (d : HttpClientDetails) :
    setAuthentication req d = applyScheme req (chosenScheme d) := by
  rw [setAuthentication, chosenScheme]
  by_cases h1 : d.ApiKey ≠ ""
  · by_cases h2 : d.User ≠ "" <;> simp [h1, h2, applyScheme]
  · by_cases h3 : d.AccessToken ≠ ""
    · by_cases h4 : IsApiKey d.AccessToken <;> simp [h1, h3, h4, applyScheme]
    · by_cases h5 : d.Password ≠ "" <;> simp [h1, h3, h5, applyScheme]

theorem applyScheme_exclusive (req : Request) (s : AuthScheme)
    (hAu : req.headers (canonKey "Authorization") = [])
    (hAr : req.headers (canonKey "X-JFrog-Art-Api") = []) :
    ¬(hasBasicAuth (applyScheme req s) ∧ hasBearerAuth (applyScheme req s))
    ∧ ¬(hasBasicAuth (applyScheme req s) ∧ hasArtApiHeader (applyScheme req s))
    ∧ ¬(hasBearerAuth (applyScheme req s) ∧ hasArtApiHeader (applyScheme req s)) := by
  have hGetAu : hGet req.headers "Authorization" = "" := by
    rw [hGet, hAu]; rfl
  have hValAr : hValues req.headers "X-JFrog-Art-Api" = [] := by
    rw [hValues, hAr]
  cases s with
  | basic u p =>
    have hA : hGet (applyScheme req (.basic u p)).headers "Authorization"
        = basicAuthValue u p := hGet_hSet_same _ _ _
    have hR : hValues (applyScheme req (.basic u p)).headers "X-JFrog-Art-Api" = [] := by
      rw [show (applyScheme req (.basic u p)).headers
            = hSet req.headers "Authorization" (basicAuthValue u p) from rfl,
          hValues_hSet_other _ _ _ _ (by decide)]
      exact hValAr
    refine ⟨?_, ?_, ?_⟩
    · rintro ⟨_, ⟨y, hy⟩⟩
      rw [hA, basicAuthValue] at hy
      exact basic_ne_bearer _ y hy
    · rintro ⟨_, hr⟩; exact hr hR
    · rintro ⟨⟨y, hy⟩, _⟩
      rw [hA, basicAuthValue] at hy
      exact basic_ne_bearer _ y hy
  | artApi k =>
    have hA : hGet (applyScheme req (.artApi k)).headers "Authorization" = "" := by
      rw [show (applyScheme req (.artApi k)).headers
            = hSet req.headers "X-JFrog-Art-Api" k from rfl,
          hGet_hSet_other _ _ _ _ (by decide)]
      exact hGetAu
    refine ⟨?_, ?_, ?_⟩
    · rintro ⟨⟨x, hx⟩, _⟩
      rw [hA] at hx
      have hlen := congrArg String.length hx
      rw [strLength_append, show ("" : String).length = 0 from rfl,
          show ("Basic " : String).length = 6 from rfl] at hlen
      omega
    · rintro ⟨⟨x, hx⟩, _⟩
      rw [hA] at hx
      have hlen := congrArg String.length hx
      rw [strLength_append, show ("" : String).length = 0 from rfl,
          show ("Basic " : String).length = 6 from rfl] at hlen
      omega
    · rintro ⟨⟨x, hx⟩, _⟩
      rw [hA] at hx
      have hlen := congrArg String.length hx
      rw [strLength_append, show ("" : String).length = 0 from rfl,
          show ("Bearer " : String).length = 7 from rfl] at hlen
      omega
  | bearer t =>
    have hA : hGet (applyScheme req (.bearer t)).headers "Authorization"
        = "Bearer " ++ t := hGet_hSet_same _ _ _
    have hR : hValues (applyScheme req (.bearer t)).headers "X-JFrog-Art-Api" = [] := by
      rw [show (applyScheme req (.bearer t)).headers
            = hSet req.headers "Authorization" ("Bearer " ++ t) from rfl,
          hValues_hSet_other _ _ _ _ (by decide)]
      exact hValAr
    refine ⟨?_, ?_, ?_⟩
    · rintro ⟨⟨x, hx⟩, _⟩
      rw [hA] at hx
      exact basic_ne_bearer x t hx.symm
    · rintro ⟨⟨x, hx⟩, _⟩
      rw [hA] at hx
      exact basic_ne_bearer x t hx.symm
    · rintro ⟨_, hr⟩; exact hr hR
  | noAuth =>
    refine ⟨?_, ?_, ?_⟩
    · rintro ⟨⟨x, hx⟩, _⟩
      rw [show applyScheme req .noAuth = req from rfl, hGetAu] at hx
      have hlen := congrArg String.length hx
      rw [strLength_append, show ("" : String).length = 0 from rfl,
          show ("Basic " : String).length = 6 from rfl] at hlen
      omega
    · rintro ⟨_, hr⟩
      exact hr (show hValues (applyScheme req .noAuth).headers "X-JFrog-Art-Api" = [] from hValAr)
    · rintro ⟨_, hr⟩
      exact hr (show hValues (applyScheme req .noAuth).headers "X-JFrog-Art-Api" = [] from hValAr)

/-- C3: the authentication decorator applies exactly one scheme chosen by
priority — API key with user gives Basic(user, apiKey); API key alone gives
`X-JFrog-Art-Api`; an access token that looks like an API key (prefix
"AKCp8", byte length at least 73) gives Basic(user, token); another access
token gives `Authorization: Bearer`; a password gives Basic(user, password);
otherwise nothing — and the resulting request never carries two of
{Basic credentials, `X-JFrog-Art-Api`, Bearer}. -/
theorem setAuthentication_priority_exclusive (req : Request) (d : HttpClientDetails)
    (hAu : req.headers (canonKey "Authorization") = [])
    (hAr : req.headers (canonKey "X-JFrog-Art-Api") = []) :
    (d.ApiKey ≠ "" → d.User ≠ "" →
      hGet (setAuthentication req d).headers "Authorization"
        = basicAuthValue d.User d.ApiKey)
    ∧ (d.ApiKey ≠ "" → d.User = "" →
      hGet (setAuthentication req d).headers "X-JFrog-Art-Api" = d.ApiKey
        ∧ hGet (setAuthentication req d).headers "Authorization" = "")
    ∧ (d.ApiKey = "" → d.AccessToken ≠ "" → IsApiKey d.AccessToken = true →
      hGet (setAuthentication req d).headers "Authorization"
        = basicAuthValue d.User d.AccessToken)
    ∧ (d.ApiKey = "" → d.AccessToken ≠ "" → IsApiKey d.AccessToken = false →
      hGet (setAuthentication req d).headers "Authorization" = "Bearer " ++ d.AccessToken)
    ∧ (d.ApiKey = "" → d.AccessToken = "" → d.Password ≠ "" →
      hGet (setAuthentication req d).headers "Authorization"
        = basicAuthValue d.User d.Password)
    ∧ (d.ApiKey = "" → d.AccessToken = "" → d.Password = "" → setAuthentication req d = req)
    ∧ (IsApiKey d.AccessToken
        = ("AKCp8".isPrefixOf d.AccessToken && decide (73 ≤ d.AccessToken.utf8ByteSize)))
    ∧ ¬(hasBasicAuth (setAuthentication req d) ∧ hasBearerAuth (setAuthentication req d))
    ∧ ¬(hasBasicAuth (setAuthentication req d) ∧ hasArtApiHeader (setAuthentication req d))
    ∧ ¬(hasBearerAuth (setAuthentication req d) ∧ hasArtApiHeader (setAuthentication req d)) := by
  have hx := applyScheme_exclusive req (chosenScheme d) hAu hAr
  rw [← setAuthentication_eq_applyScheme] at hx
  refine ⟨?_, ?_, ?_, ?_, ?_, ?_, rfl, hx.1, hx.2.1, hx.2.2⟩
  · intro h1 h2
    rw [setAuthentication, if_pos h1, if_pos h2]
    exact hGet_hSet_same _ _ _
  · intro h1 h2
    rw [setAuthentication, if_pos h1, if_neg (by simp [h2])]
    refine ⟨hGet_hSet_same _ _ _, ?_⟩
    rw [hGet_hSet_other _ _ _ _ (by decide), hGet, hAu]; rfl
  · intro h1 h2 h3
    rw [setAuthentication, if_neg (by simp [h1]), if_pos h2, if_pos h3]
    exact hGet_hSet_same _ _ _
  · intro h1 h2 h3
    rw [setAuthentication, if_neg (by simp [h1]), if_pos h2,
        if_neg (by simp [h3])]
    exact hGet_hSet_same _ _ _
  · intro h1 h2 h3
    rw [setAuthentication, if_neg (by simp [h1]), if_neg (by simp [h2]), if_pos h3]
    exact hGet_hSet_same _ _ _
  · intro h1 h2 h3
    rw [setAuthentication, if_neg (by simp [h1]), if_neg (by simp [h2]),
        if_neg (by simp [h3])]

theorem setAuthentication_priority_exclusive_witness :
    hGet (setAuthentication c3req c3d).headers "Authorization"
      = basicAuthValue "admin" "AKCpSomeKey" :=
  (setAuthentication_priority_exclusive c3req c3d rfl rfl).1 (by decide) (by decide)

/-! ### C5 -/

theorem hGet_hSet_canon (h : Headers) (k v k' : String) (hc : canonKey k' = canonKey k) :
    hGet (hSet h k v) k' = v := by
  rw [hGet, hSet, hc]
  simp

theorem hGet_copyHeaders_fold (hs : List (String × String)) (h : Headers) (k : String) :
    hGet (hs.foldl (fun acc p => hSet acc p.1 p.2) h) k =
      match lastHeaderMatch hs k with
      | some v => v
      | none => hGet h k := by
  induction hs generalizing h with
  | nil => rfl
  | cons p t ih =>
    rw [List.foldl_cons, ih (hSet h p.1 p.2)]
    rw [show lastHeaderMatch (p :: t) k
          = (match lastHeaderMatch t k with
             | some v => some v
             | none => if canonKey p.1 = canonKey k then some p.2 else none) from rfl]
    cases hm : lastHeaderMatch t k with
    | some v => rfl
    | none =>
      by_cases hc : canonKey p.1 = canonKey k
      · rw [if_pos hc]
        exact hGet_hSet_canon h p.1 p.2 k hc.symm
      · rw [if_neg hc]
        exact hGet_hSet_other h p.1 p.2 k (fun hcc => hc hcc.symm)

theorem traceToken_ne_empty (T : String) : SetUberTraceIdToken T ≠ "" := by
  intro h
  have hlen := congrArg String.length h
  rw [SetUberTraceIdToken, strLength_append, strLength_append, strLength_append,
      show (":" : String).length = 1 from rfl, show (":0:0" : String).length = 4 from rfl,
      show ("" : String).length = 0 from rfl] at hlen
  omega

/-- C5 (amended): once the trace-id token is set to `T`, every request built
by `doRequest` carries exactly one `uber-trace-id` header with value
`T:T:0:0` — the injected trace header is set after the caller headers are
copied and therefore wins even over a caller-provided `uber-trace-id` —
while a caller-provided header does override the injected `User-Agent`, and
`User-Agent` keeps the injected value exactly when the caller provided no
header of that name. -/
theorem composeRequestHeaders_trace (userAgent T : String) (d : HttpClientDetails)
    (req : Request) :
    hGet (composeRequestHeaders userAgent (SetUberTraceIdToken T) d req).headers
        "uber-trace-id" = T ++ ":" ++ T ++ ":0:0"
    ∧ hValues (composeRequestHeaders userAgent (SetUberTraceIdToken T) d req).headers
        "uber-trace-id" = [T ++ ":" ++ T ++ ":0:0"]
    ∧ (lastHeaderMatch d.Headers "User-Agent" = none →
        hGet (composeRequestHeaders userAgent (SetUberTraceIdToken T) d req).headers
          "User-Agent" = userAgent)
    ∧ (∀ v, lastHeaderMatch d.Headers "User-Agent" = some v →
        hGet (composeRequestHeaders userAgent (SetUberTraceIdToken T) d req).headers
          "User-Agent" = v) := by
  have hne := traceToken_ne_empty T
  rw [composeRequestHeaders, addUberTraceIdHeaderIfSet, if_neg hne]
  refine ⟨hGet_hSet_same _ _ _, hValues_hSet_same _ _ _, ?_, ?_⟩
  · intro h0
    rw [hGet_hSet_other _ _ _ _ (by decide)]
    show hGet (d.Headers.foldl (fun acc p => hSet acc p.1 p.2)
        (hSet (setAuthentication req d).headers "User-Agent" userAgent)) "User-Agent"
      = userAgent
    rw [hGet_copyHeaders_fold, h0]
    exact hGet_hSet_same _ _ _
  · intro v hv
    rw [hGet_hSet_other _ _ _ _ (by decide)]
    show hGet (d.Headers.foldl (fun acc p => hSet acc p.1 p.2)
        (hSet (setAuthentication req d).headers "User-Agent" userAgent)) "User-Agent"
      = v
    rw [hGet_copyHeaders_fold, hv]

/-- C5 counterexample: the caller explicitly provides an `uber-trace-id`
header valued `"X"`, yet with the token set to `"T"` the built request
carries `"T:T:0:0"` — the caller-provided value does not override the
injected trace header. -/
theorem trace_header_caller_override_fails :
    hGet (composeRequestHeaders "ua" (SetUberTraceIdToken "T") c5d c5req).headers
        "uber-trace-id" = "T:T:0:0"
    ∧ hGet (composeRequestHeaders "ua" (SetUberTraceIdToken "T") c5d c5req).headers
        "uber-trace-id" ≠ "X" := by
  constructor
  · decide
  · decide

theorem composeRequestHeaders_trace_witness :
    hGet (composeRequestHeaders "ua" (SetUberTraceIdToken "T") c5d c5req).headers
        "User-Agent" = "ua"
    ∧ hGet (composeRequestHeaders "ua" (SetUberTraceIdToken "T") c5dUA c5req).headers
        "User-Agent" = "custom-agent"
    ∧ hValues (composeRequestHeaders "ua" (SetUberTraceIdToken "T") c5dUA c5req).headers
        "uber-trace-id" = ["T" ++ ":" ++ "T" ++ ":0:0"] :=
  ⟨(composeRequestHeaders_trace "ua" "T" c5d c5req).2.2.1 (by decide),
   (composeRequestHeaders_trace "ua" "T" c5dUA c5req).2.2.2 "custom-agent" (by decide),
   (composeRequestHeaders_trace "ua" "T" c5dUA c5req).2.1⟩

/-! ### C6 -/

/-- C6 (amended): when the POST dispatch is answered with a captured
redirect to `B` and the sentinel error, `followRedirect = true` re-sends the
POST with the same body to `B` and returns that result verbatim (clearing
`redirectUrl`), while `followRedirect = false` returns a nil body,
`redirectUrl = B`, and the non-nil sentinel redirect error. -/
theorem doRequest_redirect (dispatch : Bool → DispatchOutcome)
    (sendPost : String → String → SendResult) (content : String) (closeBody : Bool)
    (r302 : Response) (e B : String) (hB : B ≠ "")
    (hd : dispatch true = ⟨some r302, some e, B⟩) :
    doRequest dispatch sendPost "POST" content true closeBody =
      ⟨(sendPost B content).resp, (sendPost B content).body, "", (sendPost B content).err⟩
    ∧ doRequest dispatch sendPost "POST" content false closeBody =
      ⟨some r302, none, B, some e⟩ := by
  constructor
  · simp only [doRequest]
    rw [show (!true || (true && ("POST" == "POST"))) = true from rfl, hd]
    simp [hB]
  · simp only [doRequest]
    rw [show (!false || (false && ("POST" == "POST"))) = true from rfl, hd]
    simp [hB]

/-- C6 counterexample: at a concrete POST answered with a 302 to
`http://b`, `followRedirect = false` yields `redirectUrl = "http://b"`
together with a NON-nil error — not "no error" as claimed. -/
theorem post_redirect_block_error :
    (doRequest c6dispatch c6sendPost "POST" "payload" false true).respBody = none
    ∧ (doRequest c6dispatch c6sendPost "POST" "payload" false true).redirectUrl = "http://b"
    ∧ (doRequest c6dispatch c6sendPost "POST" "payload" false true).err ≠ none := by
  refine ⟨rfl, rfl, ?_⟩
  intro h
  rw [show (doRequest c6dispatch c6sendPost "POST" "payload" false true).err
        = some "redirect" from rfl] at h
  cases h

theorem doRequest_redirect_witness :
    doRequest c6dispatch c6sendPost "POST" "payload" true true =
      ⟨(c6sendPost "http://b" "payload").resp, (c6sendPost "http://b" "payload").body, "",
       (c6sendPost "http://b" "payload").err⟩ :=
  (doRequest_redirect c6dispatch c6sendPost "payload" true c6resp302 "redirect" "http://b"
    (by decide) rfl).1

/-! ### C8 -/

/-- C8 (divergence witnessed on the code): a PUT answered with status 429
makes the `UploadFile` execution handler ask for a retry — because
`UploadFileFromReader` turns every status outside {200, 201, 202} into an
error and the handler retries on any error — contradicting the claim (and
the code's own `response-code < 500, should not retry` comment); the
accepted-status and error-message parts of the claim do hold: a 200
response has its body read and returned without error, and a 404 yields an
error carrying the status line. -/
theorem upload_retry_divergence :
    (uploadExecutionHandler ⟨some resp429, none⟩).1 = true
    ∧ UploadFileFromReader ⟨some resp200ok, none⟩ = (some resp200ok, some "uploaded", none)
    ∧ (UploadFileFromReader ⟨some resp404, none⟩).2.2
        = some ("server response: " ++ resp404.status) := by
  exact ⟨rfl, rfl, rfl⟩

/-! ### C2 -/

theorem scanNon206_map (rs : List Response) :
    scanNon206 (rs.map some) = .ok (rs.find? (fun r => decide (r.statusCode ≠ 206))) := by
  induction rs with
  | nil => rfl
  | cons r t ih =>
    show scanNon206 (some r :: t.map some) = _
    rw [scanNon206]
    by_cases h : r.statusCode ≠ 206
    · rw [if_pos h, List.find?_cons_of_pos _ (by simpa using h)]
    · rw [if_neg h, ih, List.find?_cons_of_neg _ (by simpa using h)]

theorem getLast?_map_some (rs : List Response) :
    (rs.map some).getLast? = rs.getLast?.map some := by
  induction rs with
  | nil => rfl
  | cons r t ih =>
    cases t with
    | nil => rfl
    | cons s u =>
      show (some r :: some s :: (u.map some)).getLast? = ((r :: s :: u).getLast?).map some
      rw [List.getLast?_cons_cons, List.getLast?_cons_cons]
      exact ih

/-- C2: after all chunk workers have completed (each filled slot holding a
response), the join returns the error of some slot (with nil response) when
any slot holds a non-nil error; otherwise, the first response in ascending
index order whose status is not 206, with nil error; otherwise the last
slot's response with nil error. -/
theorem joinChunks_spec (es : List (Option String)) (rs : List Response) :
    ((∃ e, some e ∈ es) →
      ∃ e, some e ∈ es ∧ joinChunks es (rs.map some) = .ok (none, some e))
    ∧ ((∀ x ∈ es, x = none) →
      ∀ r, rs.find? (fun r => decide (r.statusCode ≠ 206)) = some r →
        joinChunks es (rs.map some) = .ok (some r, none))
    ∧ ((∀ x ∈ es, x = none) → (∀ r ∈ rs, r.statusCode = 206) →
      ∀ r, rs.getLast? = some r →
        joinChunks es (rs.map some) = .ok (some r, none)) := by
  refine ⟨?_, ?_, ?_⟩
  · intro h
    obtain ⟨e, he⟩ := firstErr_exists es h
    refine ⟨e, firstErr_mem es e he, ?_⟩
    rw [joinChunks, he]
  · intro hall r hr
    rw [joinChunks, firstErr_eq_none es hall, scanNon206_map, hr]
  · intro hall h206 r hr
    have hfind : rs.find? (fun r => decide (r.statusCode ≠ 206)) = none := by
      rw [List.find?_eq_none]
      intro x hx
      simpa using h206 x hx
    rw [joinChunks, firstErr_eq_none es hall, scanNon206_map, hfind,
        getLast?_map_some, hr]
    rfl

theorem joinChunks_spec_witness :
    joinChunks [none, none] ([c2resp206, c2resp404].map some) = .ok (some c2resp404, none)
    ∧ joinChunks [none, none] ([c2resp206, c2resp206].map some) = .ok (some c2resp206, none) :=
  ⟨(joinChunks_spec [none, none] [c2resp206, c2resp404]).2.1 (by decide) c2resp404 rfl,
   (joinChunks_spec [none, none] [c2resp206, c2resp206]).2.2 (by decide)
     (by
       intro r hr
       have h : r = c2resp206 := by simpa using hr
       rw [h]
       rfl)
     c2resp206 rfl⟩

/-! ### C1 -/

/-- C1: for every split count N ≥ 1 and every file size, chunk `i` spans
`[(fileSize / N) * i, (fileSize / N) * (i+1))` with the last chunk extended
by `fileSize % N`; consequently the ranges are pairwise disjoint and their
union is exactly `[0, fileSize)`. -/
theorem chunk_ranges_partition (fileSize splitCount : Nat) (hN : 1 ≤ splitCount) :
    (∀ i, i < splitCount →
      chunkStart fileSize splitCount i = fileSize / splitCount * i
      ∧ chunkEnd fileSize splitCount i =
          fileSize / splitCount * (i + 1)
            + (if i = splitCount - 1 then fileSize % splitCount else 0))
    ∧ (∀ i j, i < splitCount → j < splitCount → i ≠ j →
      ∀ x, ¬(chunkStart fileSize splitCount i ≤ x ∧ x < chunkEnd fileSize splitCount i
            ∧ chunkStart fileSize splitCount j ≤ x ∧ x < chunkEnd fileSize splitCount j))
    ∧ (∀ x, x < fileSize ↔
      ∃ i, i < splitCount ∧ chunkStart fileSize splitCount i ≤ x
        ∧ x < chunkEnd fileSize splitCount i) := by
  have key : splitCount * (fileSize / splitCount) + fileSize % splitCount = fileSize :=
    Nat.div_add_mod fileSize splitCount
  have endLast : chunkEnd fileSize splitCount (splitCount - 1) = fileSize := by
    rw [chunkEnd, if_pos rfl, show splitCount - 1 + 1 = splitCount from by omega,
        Nat.mul_comm (fileSize / splitCount) splitCount]
    exact key
  have disj : ∀ i j, i < j → j < splitCount →
      chunkEnd fileSize splitCount i ≤ chunkStart fileSize splitCount j := by
    intro i j hij hj
    rw [chunkEnd, chunkStart, if_neg (show i ≠ splitCount - 1 from by omega), Nat.add_zero]
    exact Nat.mul_le_mul (Nat.le_refl _) (by omega)
  have endLe : ∀ i, i < splitCount → chunkEnd fileSize splitCount i ≤ fileSize := by
    intro i hi
    by_cases hl : i = splitCount - 1
    · rw [hl, endLast]
    · rw [chunkEnd, if_neg hl, Nat.add_zero]
      have h2 : fileSize / splitCount * (i + 1) ≤ fileSize / splitCount * splitCount :=
        Nat.mul_le_mul (Nat.le_refl _) (by omega)
      have h3 : fileSize / splitCount * splitCount ≤ fileSize :=
        Nat.div_mul_le_self fileSize splitCount
      omega
  refine ⟨fun i _ => ⟨rfl, rfl⟩, ?_, ?_⟩
  · intro i j hi hj hne x hx
    obtain ⟨h1, h2, h3, h4⟩ := hx
    rcases Nat.lt_or_ge i j with hij | hij
    · have := disj i j hij hj
      omega
    · have hji : j < i := by omega
      have := disj j i hji hi
      omega
  · intro x
    constructor
    · intro hx
      by_cases hb0 : fileSize / splitCount = 0
      · refine ⟨splitCount - 1, by omega, ?_, ?_⟩
        · rw [chunkStart, hb0]
          omega
        · rw [endLast]; exact hx
      · have hbpos : 0 < fileSize / splitCount := Nat.pos_of_ne_zero hb0
        by_cases hcase : x / (fileSize / splitCount) < splitCount - 1
        · refine ⟨x / (fileSize / splitCount), by omega, ?_, ?_⟩
          · rw [chunkStart, Nat.mul_comm]
            exact Nat.div_mul_le_self x (fileSize / splitCount)
          · rw [chunkEnd,
                if_neg (show x / (fileSize / splitCount) ≠ splitCount - 1 from by omega),
                Nat.add_zero]
            have hdm := Nat.div_add_mod x (fileSize / splitCount)
            have hmod : x % (fileSize / splitCount) < fileSize / splitCount :=
              Nat.mod_lt x hbpos
            have hexp : fileSize / splitCount * (x / (fileSize / splitCount) + 1)
                = fileSize / splitCount * (x / (fileSize / splitCount))
                  + fileSize / splitCount := by ring
            omega
        · refine ⟨splitCount - 1, by omega, ?_, ?_⟩
          · rw [chunkStart]
            have h1 : fileSize / splitCount * (splitCount - 1)
                ≤ fileSize / splitCount * (x / (fileSize / splitCount)) :=
              Nat.mul_le_mul (Nat.le_refl _) (by omega)
            have hdm := Nat.div_add_mod x (fileSize / splitCount)
            omega
          · rw [endLast]; exact hx
    · rintro ⟨i, hi, h1, h2⟩
      exact Nat.lt_of_lt_of_le h2 (endLe i hi)

theorem chunk_ranges_partition_witness :
    ∃ i, i < 3 ∧ chunkStart 10 3 i ≤ 7 ∧ 7 < chunkEnd 10 3 i :=
  ((chunk_ranges_partition 10 3 (by decide)).2.2 7).mp (by decide)

